import Mathlib

/-!
Verification development for the helixir-rs memory substrate.

The Rust sources are shallowly embedded: pure functions become Lean
functions; store-backed operations take explicit oracle parameters for the
store responses and return the list of store calls they issue; `f64` scores
are modelled as rationals; machine integers are `Int`/`Nat`.
-/

namespace Helixir

/-- Character-count truncation, from `safe_truncate` in
`toolkit/tooling_manager.rs` (`s.chars().take(max_chars).collect()`). -/
def safe_truncate (s : String) (max_chars : Nat) : String :=
  ⟨s.data.take max_chars⟩

/-- Rust `str::to_lowercase` (character-wise; agrees on ASCII). -/
def to_lowercase (s : String) : String := ⟨s.data.map Char.toLower⟩

/-- Rust `str::to_uppercase` (character-wise; agrees on ASCII). -/
def to_uppercase (s : String) : String := ⟨s.data.map Char.toUpper⟩

/-- Rust `str::trim`: strip whitespace from both ends. -/
def rust_trim (s : String) : String :=
  ⟨((s.data.dropWhile Char.isWhitespace).reverse.dropWhile Char.isWhitespace).reverse⟩

/-! ## SipHash-1-3 as used by `std::collections::hash_map::DefaultHasher`

`make_cache_key` in `toolkit/mind_toolbox/search/vector.rs` hashes the key
data with `DefaultHasher::new()`, which is SipHash-1-3 with both keys zero.
Hashing a `&str` feeds the string's UTF-8 bytes followed by a single `0xff`
byte into the hasher.  64-bit words are modelled as `Nat` reduced
modulo `2^64`. -/

def wrap64 (x : Nat) : Nat := x % 18446744073709551616

/-- Left rotation of a 64-bit word (valid for `x < 2^64`, `0 < n < 64`). -/
def rotl64 (x n : Nat) : Nat := wrap64 (x * 2 ^ n) + x / 2 ^ (64 - n)

structure SipState where
  v0 : Nat
  v1 : Nat
  v2 : Nat
  v3 : Nat

/-- One SipRound (Rust `compress!` in `core/src/hash/sip.rs`). -/
def sipRound (s : SipState) : SipState :=
  let v0 := wrap64 (s.v0 + s.v1)
  let v1 := rotl64 s.v1 13
  let v1 := v1 ^^^ v0
  let v0 := rotl64 v0 32
  let v2 := wrap64 (s.v2 + s.v3)
  let v3 := rotl64 s.v3 16
  let v3 := v3 ^^^ v2
  let v0 := wrap64 (v0 + v3)
  let v3 := rotl64 v3 21
  let v3 := v3 ^^^ v0
  let v2 := wrap64 (v2 + v1)
  let v1 := rotl64 v1 17
  let v1 := v1 ^^^ v2
  let v2 := rotl64 v2 32
  ⟨v0, v1, v2, v3⟩

/-- Absorb one 8-byte message word: `v3 ^= m`, one round (SipHash-1-3 has
one compression round), `v0 ^= m`. -/
def sipCompress (s : SipState) (m : Nat) : SipState :=
  let s := { s with v3 := s.v3 ^^^ m }
  let s := sipRound s
  { s with v0 := s.v0 ^^^ m }

/-- Final block and finalization: absorb `b`, then `v2 ^= 0xff` and three
finalization rounds, returning `v0 ^ v1 ^ v2 ^ v3`. -/
def sipFinish (s : SipState) (b : Nat) : Nat :=
  let s := sipCompress s b
  let s := { s with v2 := s.v2 ^^^ 255 }
  let s := sipRound (sipRound (sipRound s))
  ((s.v0 ^^^ s.v1) ^^^ s.v2) ^^^ s.v3

/-- Little-endian word value of up to 8 bytes. -/
def leWord (bs : List Nat) : Nat := bs.foldr (fun b acc => b + 256 * acc) 0

/-- Process the byte stream in 8-byte little-endian words; the final block
carries the remaining bytes with the total length (mod 256) in the top byte. -/
def sipBlocks (s : SipState) (msgLen : Nat) : List Nat → Nat
  | b0 :: b1 :: b2 :: b3 :: b4 :: b5 :: b6 :: b7 :: rest =>
      sipBlocks (sipCompress s (leWord [b0, b1, b2, b3, b4, b5, b6, b7])) msgLen rest
  | rest => sipFinish s ((msgLen % 256) * 72057594037927936 + leWord rest)

/-- SipHash-1-3 with keys `(0, 0)`, i.e. Rust `DefaultHasher::new()`. -/
def siphash13 (bytes : List Nat) : Nat :=
  sipBlocks
    { v0 := 0x736f6d6570736575, v1 := 0x646f72616e646f6d,
      v2 := 0x6c7967656e657261, v3 := 0x7465646279746573 }
    bytes.length bytes

/-- UTF-8 encoding of a character as a byte list. -/
def utf8Bytes (c : Char) : List Nat :=
  let n := c.toNat
  if n < 128 then [n]
  else if n < 2048 then [192 + n / 64, 128 + n % 64]
  else if n < 65536 then [224 + n / 4096, 128 + (n / 64) % 64, 128 + n % 64]
  else [240 + n / 262144, 128 + (n / 4096) % 64, 128 + (n / 64) % 64, 128 + n % 64]

def strBytes (s : String) : List Nat := (s.data.map utf8Bytes).flatten

/-- Rust `DefaultHasher` result for a `&str`: the UTF-8 bytes followed by a
single `0xff` byte (`impl Hash for str`). -/
def rust_default_hash_str (s : String) : Nat := siphash13 (strBytes s ++ [255])

def hexDigit (n : Nat) : Char := if n < 10 then Char.ofNat (48 + n) else Char.ofNat (87 + n)

def hexChars : Nat → Nat → List Char
  | 0, _ => []
  | fuel + 1, n => if n = 0 then [] else hexChars fuel (n / 16) ++ [hexDigit (n % 16)]

/-- Rust `format!("{:x}", n)` for a `u64`: lowercase hex, no leading zeros. -/
def rustHex (n : Nat) : String := if n = 0 then "0" else ⟨hexChars 64 n⟩

/-- `make_cache_key` from `toolkit/mind_toolbox/search/vector.rs`.  The
caller's `user_id.unwrap_or("")` is the `user_id` argument; the `Display`
rendering of the `f64` `min_score` is abstracted as the already-rendered
string `min_score_str`.  The source takes `format!("{:x}", hasher.finish())`
and byte-slices it with `[..16]`, which panics when the hex string is
shorter than 16 characters; the panic is modelled as `none`. -/
def make_cache_key (query user_id : String) (limit : Nat) (min_score_str : String) :
    Option String :=
  let key_data := query ++ "|" ++ user_id ++ "|" ++ toString limit ++ "|" ++ min_score_str
  let h := rustHex (rust_default_hash_str key_data)
  if 16 ≤ h.data.length then some ⟨h.data.take 16⟩ else none

/-! ## Smart traversal v2: models (`search/smart_traversal_v2/models.rs`)

`f64` scores become rationals. The free-form `metadata` map (always `None`
in the constructors below) is omitted from the structure. -/

namespace edge_weights

def BECAUSE : ℚ := 1
def IMPLIES : ℚ := 9/10
def SIMILAR_TO : ℚ := 3/4
def MEMORY_RELATION : ℚ := 7/10
def EXTRACTED_ENTITY : ℚ := 3/5
def CONTRADICTS : ℚ := 2/5
def DEFAULT : ℚ := 1/2

end edge_weights

structure SearchResult where
  memory_id : String
  content : String
  vector_score : ℚ
  graph_score : ℚ
  temporal_score : ℚ
  combined_score : ℚ
  depth : Nat
  source : String
  edge_path : Option (List String)
  created_at : Option String
deriving DecidableEq, Repr

/-- `SearchResult::from_vector`: `combined = vector_score * 0.7 + temporal_score * 0.3`. -/
def SearchResult.from_vector (memory_id content : String)
    (vector_score temporal_score : ℚ) : SearchResult :=
  { memory_id := memory_id, content := content,
    vector_score := vector_score, graph_score := 0,
    temporal_score := temporal_score,
    combined_score := vector_score * (7/10) + temporal_score * (3/10),
    depth := 0, source := "vector", edge_path := none, created_at := none }

/-- `SearchResult::from_graph`:
`combined = semantic_sim * 0.3 + graph_score * 0.5 + temporal_score * 0.2`. -/
def SearchResult.from_graph (memory_id content : String)
    (semantic_sim graph_score temporal_score : ℚ) (depth : Nat)
    (edge_path : List String) : SearchResult :=
  { memory_id := memory_id, content := content,
    vector_score := semantic_sim, graph_score := graph_score,
    temporal_score := temporal_score,
    combined_score := semantic_sim * (3/10) + graph_score * (1/2) + temporal_score * (1/5),
    depth := depth, source := "graph", edge_path := some edge_path, created_at := none }

structure SearchConfig where
  vector_top_k : Nat
  graph_depth : Nat
  min_vector_score : ℚ
  min_combined_score : ℚ
  edge_types : Option (List String)
deriving DecidableEq, Repr

/-- `impl Default for SearchConfig`. -/
def SearchConfig.default : SearchConfig :=
  { vector_top_k := 10, graph_depth := 2, min_vector_score := 1/2,
    min_combined_score := 3/10,
    edge_types := some ["BECAUSE", "IMPLIES", "MEMORY_RELATION"] }

/-! ## Smart traversal v2: phase 2, graph expansion
(`search/smart_traversal_v2/phases.rs`)

The store is an oracle `conns : String → Except String GraphConnectionsResponse`
standing for `getMemoryLogicalConnections`.  The file `smart_traversal_v2/scoring.rs`
is not among the sources, so:
* `calculate_graph_score` is modelled from the spec: graph score composition
  is `edge_weight · parent_score` (multiplicative attenuation, §4.5);
* `calculate_temporal_freshness(created_at, 30.0)` (an exponential decay,
  §4.2) is abstracted as an oracle parameter `fresh : String → ℚ`.

Per-seed tasks run concurrently in the source but each seed's traversal is
single-threaded with a per-seed visited set and tasks are joined in seed
order, so the phase is modelled sequentially. -/

structure ConnectedMemory where
  memory_id : String
  content : String
  created_at : String
deriving DecidableEq, Repr

structure GraphConnectionsResponse where
  implies_out : List ConnectedMemory
  implies_in : List ConnectedMemory
  because_out : List ConnectedMemory
  because_in : List ConnectedMemory
  contradicts_out : List ConnectedMemory
  contradicts_in : List ConnectedMemory
  relation_out : List ConnectedMemory
  relation_in : List ConnectedMemory
deriving DecidableEq, Repr

def GraphConnectionsResponse.empty : GraphConnectionsResponse :=
  ⟨[], [], [], [], [], [], [], []⟩

/-- Modelled from the spec: `calculate_graph_score` lives in the missing
`smart_traversal_v2/scoring.rs`; §4.5 gives `edge_weight · parent_score`. -/
def calculate_graph_score (edge_weight parent_score : ℚ) : ℚ :=
  edge_weight * parent_score

/-- `process_edge_collection`: emit a `from_graph` result (fixed
`semantic_sim = 0.5`, `depth` recorded as 1, `edge_path = [edge_type]`) for
every not-yet-visited neighbour, and record it as a continuation candidate
with its graph score. -/
def process_edge_collection (fresh : String → ℚ) (memories : List ConnectedMemory)
    (edge_type : String) (edge_weight parent_score : ℚ) (visited : List String)
    (results : List SearchResult) (neighbors : List (String × ℚ)) :
    List SearchResult × List (String × ℚ) :=
  memories.foldl
    (fun acc mem =>
      if mem.memory_id ∈ visited then acc
      else
        let temporal_score := fresh mem.created_at
        let graph_score := calculate_graph_score edge_weight parent_score
        let semantic_sim : ℚ := 1/2
        let result := SearchResult.from_graph mem.memory_id mem.content semantic_sim
          graph_score temporal_score 1 [edge_type]
        (acc.1 ++ [result], acc.2 ++ [(mem.memory_id, graph_score)]))
    (results, neighbors)

/-- Stable insertion (descending by score) modelling the source's stable
`neighbors.sort_by(|a, b| b.1.partial_cmp(&a.1).unwrap())`. -/
def insertNeighborDesc (x : String × ℚ) : List (String × ℚ) → List (String × ℚ)
  | [] => [x]
  | y :: ys => if x.2 < y.2 then y :: insertNeighborDesc x ys else x :: y :: ys

def sortNeighborsDesc : List (String × ℚ) → List (String × ℚ)
  | [] => []
  | x :: xs => insertNeighborDesc x (sortNeighborsDesc xs)

/-- The sequential loop over the top-3 continuation candidates inside
`expand_from_node`: re-check the visited set, mark visited, recurse
(`rec_fn`), and extend the result list; any error aborts the whole node via
`?`. -/
def expandLoop
    (rec_fn : String → List String → ℚ → Except String (List SearchResult × List String)) :
    List (String × ℚ) → List String → List SearchResult →
    Except String (List SearchResult × List String)
  | [], visited, acc => Except.ok (acc, visited)
  | (nid, nscore) :: rest, visited, acc =>
    if nid ∈ visited then expandLoop rec_fn rest visited acc
    else
      match rec_fn nid (nid :: visited) nscore with
      | Except.error e => Except.error e
      | Except.ok (res, visited2) => expandLoop rec_fn rest visited2 (acc ++ res)

/-- `expand_from_node`.  `fuel` is `max_depth - current_depth`: the source
recurses (into the three highest-scoring candidates) only while
`current_depth < max_depth`, incrementing `current_depth` by one, so the
two formulations coincide; the emitted results do not depend on the depth
counter itself.  All eight neighbour collections are processed, the
outgoing ones with their table weights and the incoming ones scaled by the
source's fixed factors. -/
def expand_from_node (fresh : String → ℚ)
    (conns : String → Except String GraphConnectionsResponse) :
    Nat → String → List String → ℚ →
    Except String (List SearchResult × List String)
  | fuel, node_id, visited, parent_score =>
    match conns node_id with
    | Except.error e => Except.error e
    | Except.ok response =>
      let st1 := process_edge_collection fresh response.implies_out "IMPLIES"
        edge_weights.IMPLIES parent_score visited [] []
      let st2 := process_edge_collection fresh response.because_out "BECAUSE"
        edge_weights.BECAUSE parent_score visited st1.1 st1.2
      let st3 := process_edge_collection fresh response.contradicts_out "CONTRADICTS"
        edge_weights.CONTRADICTS parent_score visited st2.1 st2.2
      let st4 := process_edge_collection fresh response.relation_out "MEMORY_RELATION"
        edge_weights.MEMORY_RELATION parent_score visited st3.1 st3.2
      let st5 := process_edge_collection fresh response.implies_in "IMPLIES_IN"
        (edge_weights.IMPLIES * (9/10)) parent_score visited st4.1 st4.2
      let st6 := process_edge_collection fresh response.because_in "BECAUSE_IN"
        (edge_weights.BECAUSE * (17/20)) parent_score visited st5.1 st5.2
      let st7 := process_edge_collection fresh response.contradicts_in "CONTRADICTS_IN"
        (edge_weights.CONTRADICTS * (4/5)) parent_score visited st6.1 st6.2
      let st8 := process_edge_collection fresh response.relation_in "MEMORY_RELATION_IN"
        (edge_weights.MEMORY_RELATION * (3/5)) parent_score visited st7.1 st7.2
      match fuel with
      | 0 => Except.ok (st8.1, visited)
      | fuel + 1 =>
        expandLoop (fun nid visited2 nscore =>
            expand_from_node fresh conns fuel nid visited2 nscore)
          ((sortNeighborsDesc st8.2).take 3) visited st8.1

/-- `graph_expansion_phase`: one expansion per vector hit, each with a
fresh visited set seeded with the hit's id and the hit's combined score as
parent score, starting at `current_depth = 1` (so `max_depth - 1` further
hops remain).  A failed expansion only logs a warning.  The `edge_types`
whitelist parameter is received — and, exactly as in the source, never
used. -/
def graph_expansion_phase (fresh : String → ℚ)
    (conns : String → Except String GraphConnectionsResponse)
    (vector_hits : List SearchResult) (max_depth : Nat)
    (edge_types : List String) : List SearchResult :=
  let _ := edge_types
  vector_hits.foldl
    (fun all_results hit =>
      match expand_from_node fresh conns (max_depth - 1) hit.memory_id
          [hit.memory_id] hit.combined_score with
      | Except.ok (results, _) => all_results ++ results
      | Except.error _ => all_results)
    []

/-! ## Smart traversal v2: phase 3, rank and filter
(`rank_and_filter` in `search/smart_traversal_v2/phases.rs`)

The source folds the input into a `HashMap<String, SearchResult>` keeping,
per `memory_id`, the entry with the strictly greater combined score, then
sorts `into_values()` (an *unspecified* order) filtered by the threshold
with a stable descending sort.  The map-building loop is `best_scores`
below, an association list in first-insertion order — a hash map's contents
do not depend on iteration order.  The unspecified `into_values()` order is
made explicit: `rank_and_filter` takes the value sequence `values_order`,
and the faithful executions are exactly those where `values_order` is a
permutation of `best_scores results`. -/

def insertBest (r : SearchResult) : List SearchResult → List SearchResult
  | [] => [r]
  | x :: xs =>
    if x.memory_id = r.memory_id then
      if r.combined_score > x.combined_score then r :: xs else x :: xs
    else x :: insertBest r xs

def best_scores (results : List SearchResult) : List SearchResult :=
  results.foldl (fun acc r => insertBest r acc) []

/-- Stable insertion for the descending sort
`filtered_results.sort_by(|a, b| b.combined_score.partial_cmp(&a.combined_score).unwrap())`
(Rust `sort_by` is stable). -/
def insertResultDesc (r : SearchResult) : List SearchResult → List SearchResult
  | [] => [r]
  | x :: xs =>
    if r.combined_score < x.combined_score then x :: insertResultDesc r xs
    else r :: x :: xs

def sortByCombinedDesc : List SearchResult → List SearchResult
  | [] => []
  | x :: xs => insertResultDesc x (sortByCombinedDesc xs)

/-- Threshold filter and stable descending sort over the hash map's value
sequence. -/
def rank_and_filter (values_order : List SearchResult) (min_combined_score : ℚ) :
    List SearchResult :=
  sortByCombinedDesc (values_order.filter (fun r => min_combined_score ≤ r.combined_score))

/-! ## Reasoning engine (`toolkit/mind_toolbox/reasoning/engine.rs`) -/

inductive ReasoningType where
  | Implies
  | Because
  | Contradicts
  | Supports
deriving DecidableEq, Repr

def ReasoningType.edge_name : ReasoningType → String
  | .Implies => "IMPLIES"
  | .Because => "BECAUSE"
  | .Contradicts => "CONTRADICTS"
  | .Supports => "SUPPORTS"

structure ReasoningRelation where
  relation_id : String
  from_memory_id : String
  to_memory_id : String
  to_memory_content : String
  relation_type : ReasoningType
  strength : Int
  reasoning_id : Option String
deriving DecidableEq, Repr

/-- The store operation issued by `add_relation`, with the JSON fields the
source serializes for each variant. -/
inductive PersistCall where
  | addMemoryImplication (from_id to_id : String) (probability : Int) (reasoning_id : String)
  | addMemoryCausation (from_id to_id : String) (strength : Int) (reasoning_id : String)
  | addMemoryContradiction (from_id to_id resolution : String) (resolved : Int)
      (resolution_strategy : String)
  | addReasoningRelation (relation_id from_memory_id to_memory_id relation_type : String)
      (strength confidence : Int) (explanation created_by created_at : String)
deriving DecidableEq, Repr

/-- The strength-like numeric field a persisted operation carries
(`probability` for implications, `strength` for causation and supports;
contradictions carry none). -/
def PersistCall.strength_field : PersistCall → Option Int
  | .addMemoryImplication _ _ probability _ => some probability
  | .addMemoryCausation _ _ strength _ => some strength
  | .addMemoryContradiction _ _ _ _ _ => none
  | .addReasoningRelation _ _ _ _ strength _ _ _ _ => some strength

/-- Rust `i32::clamp(self, 0, 100)`. -/
def clamp_0_100 (strength : Int) : Int :=
  if strength < 0 then 0 else if 100 < strength then 100 else strength

/-- `ReasoningEngine::add_relation`: clamp the strength, build the relation
record, and route persistence by type.  `now` is the `chrono::Utc::now()`
RFC-3339 string used for supports edges.  The pair is (returned relation,
issued store operation); on a store error the source returns the error and
skips the cache insert, which does not affect either component. -/
def add_relation (from_id to_id : String) (relation_type : ReasoningType)
    (strength : Int) (reasoning_id : Option String) (now : String) :
    ReasoningRelation × PersistCall :=
  let strength := clamp_0_100 strength
  let rel_id := "rel_" ++ safe_truncate from_id 8 ++ "_" ++ safe_truncate to_id 8
  let relation : ReasoningRelation :=
    { relation_id := rel_id, from_memory_id := from_id, to_memory_id := to_id,
      to_memory_content := "", relation_type := relation_type,
      strength := strength, reasoning_id := reasoning_id }
  let call : PersistCall :=
    match relation_type with
    | .Implies => .addMemoryImplication from_id to_id strength (reasoning_id.getD "")
    | .Because => .addMemoryCausation from_id to_id strength (reasoning_id.getD "")
    | .Contradicts => .addMemoryContradiction from_id to_id "" 0 "pending"
    | .Supports => .addReasoningRelation rel_id from_id to_id "SUPPORTS" strength 80 ""
        "reasoning_engine" now
  (relation, call)

/-! ### `warm_up_cache`

State: the one-shot `is_warmed_up` flag and the relation cache's length.
The `getRecentRelations` response is the oracle `store`; its
`relations: Option<Vec<_>>` field is modelled by the vector's length.  The
result triple is (returned value, new state, whether a store query was
issued). -/

structure ReasoningEngineState where
  is_warmed_up : Bool
  cache_len : Nat
deriving DecidableEq, Repr

def warm_up_cache (store : Except String (Option Nat)) (st : ReasoningEngineState) :
    Except String Nat × ReasoningEngineState × Bool :=
  if st.is_warmed_up then (Except.ok st.cache_len, st, false)
  else
    match store with
    | Except.ok relations_opt =>
      let relations := relations_opt.getD 0
      (Except.ok relations, { st with is_warmed_up := true }, true)
    | Except.error _ => (Except.ok 0, st, true)

/-! ### `get_chain`

Oracles: `conns` for `getMemoryLogicalConnections` (an `Err` breaks the
walk) and `llm`, the optional provider, a function from (system prompt,
user prompt) to the generated response.  The loop is driven by
`fuel = max_depth - depth` (the source loops while `depth < max_depth`,
incrementing `depth` whenever it advances, so both agree); `depth` is still
threaded through for the returned chain.  The source byte-slices
`&current_id[..current_id.len().min(50)]`; character-count truncation is
used here (they agree on ASCII ids). -/

structure MemoryNode where
  memory_id : String
  content : String
deriving DecidableEq, Repr

structure ChainConnections where
  implies_out : List MemoryNode
  implies_in : List MemoryNode
  because_out : List MemoryNode
  because_in : List MemoryNode
  contradicts_out : List MemoryNode
  contradicts_in : List MemoryNode
  relation_out : List MemoryNode
  relation_in : List MemoryNode
deriving DecidableEq, Repr

def ChainConnections.empty : ChainConnections := ⟨[], [], [], [], [], [], [], []⟩

/-- Rust `str::parse::<usize>()`: optional leading `+`, then one or more
ASCII digits, rejecting values that overflow 64 bits. -/
def parseUsize (s : String) : Option Nat :=
  let cs := match s.data with
    | '+' :: rest => rest
    | l => l
  if cs = [] then none
  else if cs.all Char.isDigit then
    let v := cs.foldl (fun acc c => acc * 10 + (c.toNat - 48)) 0
    if v < 18446744073709551616 then some v else none
  else none

/-- The tie-break user prompt built in `get_chain` (source `format!`). -/
def chain_prompt (current_id : String)
    (unvisited : List (MemoryNode × ReasoningType × Bool)) : String :=
  let k := unvisited.length
  let cur := safe_truncate current_id 50
  let opts := String.intercalate "\n"
    (unvisited.enum.map (fun p =>
      let i := p.1
      let node := p.2.1
      let t := p.2.2.1
      toString (i + 1) ++ ". [" ++ t.edge_name ++ "] " ++ safe_truncate node.content 100))
  "Given current memory and " ++ toString k ++
    " connected memories, which ONE is most logically relevant?\n\nCurrent: " ++ cur ++
    "\n\nOptions:\n" ++ opts ++ "\n\nRespond with just the number (1-" ++ toString k ++ ")."

def chain_system_prompt : String :=
  "You are a reasoning assistant. Pick the most relevant connection."

/-- The inline tie-break selection in `get_chain` on an `Ok` LLM response:
`let choice: usize = response.trim().parse().unwrap_or(1);`
`unvisited.into_iter().nth(choice.saturating_sub(1))`
(`Nat` subtraction is saturating). -/
def llm_choice (response : String) (unvisited : List (MemoryNode × ReasoningType × Bool)) :
    Option (MemoryNode × ReasoningType × Bool) :=
  let choice := (parseUsize (rust_trim response)).getD 1
  unvisited.get? (choice - 1)

/-- One `while` pass of `get_chain`, fuel-driven. -/
def get_chain_loop (conns : String → Except Unit ChainConnections)
    (llm : Option (String → String → Except Unit String)) (chain_type : String) :
    Nat → String → List String → List ReasoningRelation → Nat →
    List ReasoningRelation × Nat
  | 0, _, _, relations, depth => (relations, depth)
  | fuel + 1, current_id, visited, relations, depth =>
    if current_id ∈ visited then (relations, depth)
    else
      let visited := current_id :: visited
      match conns current_id with
      | Except.error _ => (relations, depth)
      | Except.ok result =>
        let candidates : List (MemoryNode × ReasoningType × Bool) :=
          if chain_type = "causal" then
            result.because_in.map (fun n => (n, ReasoningType.Because, true))
          else if chain_type = "forward" then
            result.implies_out.map (fun n => (n, ReasoningType.Implies, false))
          else
            result.implies_out.map (fun n => (n, ReasoningType.Implies, false)) ++
            result.because_in.map (fun n => (n, ReasoningType.Because, true)) ++
            result.contradicts_out.map (fun n => (n, ReasoningType.Contradicts, false))
        let unvisited := candidates.filter (fun c => c.1.memory_id ∉ visited)
        if unvisited = [] then (relations, depth)
        else
          let best : Option (MemoryNode × ReasoningType × Bool) :=
            if unvisited.length = 1 then unvisited.head?
            else
              match llm with
              | some gen =>
                match gen chain_system_prompt (chain_prompt current_id unvisited) with
                | Except.ok response => llm_choice response unvisited
                | Except.error _ => unvisited.head?
              | none => unvisited.head?
          match best with
          | some (node, relation_type, is_incoming) =>
            let from_id := if is_incoming then node.memory_id else current_id
            let to_id := if is_incoming then current_id else node.memory_id
            let rel : ReasoningRelation :=
              { relation_id := "rel_" ++ from_id ++ "_" ++ to_id,
                from_memory_id := from_id, to_memory_id := to_id,
                to_memory_content := node.content, relation_type := relation_type,
                strength := 80, reasoning_id := none }
            get_chain_loop conns llm chain_type fuel node.memory_id visited
              (relations ++ [rel]) (depth + 1)
          | none => (relations, depth)

structure ReasoningChain where
  seed_memory_id : String
  relations : List ReasoningRelation
  chain_type : String
  depth : Nat
  reasoning_trail : String
deriving DecidableEq, Repr

/-- `build_reasoning_trail`. -/
def build_reasoning_trail (relations : List ReasoningRelation) : String :=
  if relations = [] then "No reasoning chain found."
  else
    String.intercalate " "
      (relations.map (fun rel =>
        let arrow :=
          match rel.relation_type with
          | .Implies => "→"
          | .Because => "←"
          | .Contradicts => "⊗"
          | .Supports => "↔"
        "[" ++ safe_truncate rel.from_memory_id 8 ++ "] " ++ arrow ++ " [" ++
          safe_truncate rel.to_memory_id 8 ++ "]"))

/-- `ReasoningEngine::get_chain`. -/
def get_chain (conns : String → Except Unit ChainConnections)
    (llm : Option (String → String → Except Unit String))
    (memory_id chain_type : String) (max_depth : Nat) : ReasoningChain :=
  let res := get_chain_loop conns llm chain_type max_depth memory_id [] [] 0
  { seed_memory_id := memory_id, relations := res.1, chain_type := chain_type,
    depth := res.2, reasoning_trail := build_reasoning_trail res.1 }

/-! ## Write pipeline (`toolkit/tooling_manager.rs`) -/

structure ExtractedMemory where
  text : String
  memory_type : String
  certainty : Int
  importance : Int
  entities : List String
deriving DecidableEq, Repr

/-- The fallback stage of `add_memory`: if the extractor yielded no
memories, synthesize a single fallback memory from the raw message
(type `fact`, certainty 50, importance 50, no entities); otherwise keep the
extracted list. -/
def memories_to_store (message : String) (extracted : List ExtractedMemory) :
    List ExtractedMemory :=
  if extracted = [] then
    [{ text := message, memory_type := "fact", certainty := 50, importance := 50,
       entities := [] }]
  else extracted

inductive MemoryOperation where
  | Add
  | Update
  | Supersede
  | Contradict
  | Delete
  | Noop
deriving DecidableEq, Repr

structure MemoryDecision where
  operation : MemoryOperation
  target_memory_id : Option String
  merged_content : Option String
  supersedes_memory_id : Option String
  contradicts_memory_id : Option String
deriving DecidableEq, Repr

/-- Bookkeeping state of `add_memory`'s per-memory loop: the id lists and
skip counter the source accumulates, the (text, minted id) pairs of every
`store_new_memory` call in order, and the count of minted ids so far. -/
structure AddMemoryLoopState where
  added_ids : List String
  updated_ids : List String
  skipped : Nat
  stored : List (String × String)
  mint_counter : Nat
deriving DecidableEq, Repr

/-- The per-memory dispatch loop of `add_memory`, reduced to its id
bookkeeping.  `decider` stands for the decision engine; `mint` enumerates
the uuid-based ids `store_new_memory` mints (`mem_<uuid[:12]>`), in call
order.  Entity, ontology, chunking and reasoning side calls do not touch
the id lists and are omitted.  Mirrored branch behaviour:
`Noop` only bumps `skipped`; `Update` with both a target id and merged
content records the target in `updated_ids` (not `added_ids`); `Update`
missing either falls through to `store_new_memory` and — exactly as in the
source — pushes the new id to *neither* list; `Supersede`, `Contradict`,
`Delete` and `Add` store a new memory and push its id to `added_ids`. -/
def add_memory_loop (decider : ExtractedMemory → MemoryDecision)
    (mint : Nat → String) (memories : List ExtractedMemory) : AddMemoryLoopState :=
  memories.foldl
    (fun st memory =>
      let decision := decider memory
      match decision.operation with
      | .Noop => { st with skipped := st.skipped + 1 }
      | .Update =>
        match decision.target_memory_id, decision.merged_content with
        | some target_id, some _ =>
          { st with updated_ids := st.updated_ids ++ [target_id] }
        | _, _ =>
          let new_id := mint st.mint_counter
          { st with stored := st.stored ++ [(memory.text, new_id)],
                    mint_counter := st.mint_counter + 1 }
      | _ =>
        let new_id := mint st.mint_counter
        { st with added_ids := st.added_ids ++ [new_id],
                  stored := st.stored ++ [(memory.text, new_id)],
                  mint_counter := st.mint_counter + 1 })
    ⟨[], [], 0, [], 0⟩

/-! ### Cross-memory relation stage of `add_memory`

The `content→id` map is a `HashMap<String, String>`; it is modelled as an
association list in insertion order with hash-map overwrite semantics
(`map_insert`).  Exact lookup (`map_get`) is order-independent; the
substring fallback iterates the map with `.iter().find(..)`, whose hash-map
order is unspecified — the model iterates in insertion order, which the
theorems only use on inputs where the fallback is not consulted. -/

def map_insert (m : List (String × String)) (k v : String) : List (String × String) :=
  if m.any (fun p => p.1 = k) then m.map (fun p => if p.1 = k then (k, v) else p)
  else m ++ [(k, v)]

def map_get (m : List (String × String)) (k : String) : Option String :=
  (m.find? (fun p => p.1 = k)).map (fun p => p.2)

/-- The map-building loop (`for (idx, mem) in memories_to_store.iter().enumerate()`):
for every index below `added_ids.len()`, pair the memory's lowercased text
— and, when longer than 100 characters, its 100-character prefix — with
`added_ids[idx]`.  (Rust compares byte lengths for the short key; character
counts agree on ASCII.) -/
def build_content_map (mts : List ExtractedMemory) (added_ids : List String) :
    List (String × String) :=
  mts.enum.foldl
    (fun m p =>
      let idx := p.1
      let mem := p.2
      if idx < added_ids.length then
        let normalized := to_lowercase mem.text
        let m := map_insert m normalized (added_ids.getD idx "")
        let short_key := safe_truncate normalized 100
        if short_key.data.length < normalized.data.length then
          map_insert m short_key (added_ids.getD idx "")
        else m
      else m)
    []

/-- Rust `str::contains(&str)`: `needle` occurs contiguously in `haystack`. -/
def charsContains (haystack needle : List Char) : Bool :=
  match haystack with
  | [] => needle.isEmpty
  | _ :: rest => needle.isPrefixOf haystack || charsContains rest needle

/-- Endpoint resolution: exact lookup of the lowercased content, falling
back to the first map entry related to it by substring containment in
either direction (`k.contains(needle) || needle.contains(k)`). -/
def resolve_endpoint (m : List (String × String)) (content : String) : Option String :=
  let needle := to_lowercase content
  match map_get m needle with
  | some v => some v
  | none =>
    (m.find? (fun p =>
      charsContains p.1.data needle.data || charsContains needle.data p.1.data)).map
      (fun p => p.2)

structure ExtractedRelation where
  from_memory_content : String
  to_memory_content : String
  relation_type : String
deriving DecidableEq, Repr

/-- Relation-type decoding in the cross-memory stage: uppercase the label,
unknown labels map to `Implies`. -/
def decode_relation_type (s : String) : ReasoningType :=
  match to_uppercase s with
  | "IMPLIES" => ReasoningType.Implies
  | "BECAUSE" => ReasoningType.Because
  | "CONTRADICTS" => ReasoningType.Contradicts
  | "SUPPORTS" => ReasoningType.Supports
  | _ => ReasoningType.Implies

/-- The relation walk: for each extracted relation whose two endpoints
resolve, record the `add_relation(from, to, mapped type, strength 80)`
invocation; unresolved relations are skipped. -/
def process_relations (m : List (String × String)) (relations : List ExtractedRelation) :
    List (String × String × ReasoningType × Int) :=
  relations.foldl
    (fun acc relation =>
      match resolve_endpoint m relation.from_memory_content,
            resolve_endpoint m relation.to_memory_content with
      | some from_id, some to_id =>
        acc ++ [(from_id, to_id, decode_relation_type relation.relation_type, 80)]
      | _, _ => acc)
    []

/-! ### `update_memory`

Store oracle fields in call order: the embedder, the first `getMemory`
(its `memory.id`, with `None` for a missing memory and `""` for a
serde-defaulted missing id), `updateMemoryById`, the second `getMemory`
guarding the best-effort embedding re-insert, and `addMemoryEmbedding`
(whose outcome the source discards with `let _ =`).  The result pairs the
public outcome with the list of issued store calls. -/

structure UpdateStoreOracle where
  embed : Except String Unit
  getMemoryFirst : Except String (Option String)
  updateMemoryById : Except String Unit
  getMemorySecond : Except String (Option String)
  addMemoryEmbedding : Except String Unit
deriving Repr

inductive UpdateCall where
  | getMemory (memory_id : String)
  | updateMemoryById (id content : String) (certainty importance : Int) (updated_at : String)
  | addMemoryEmbedding (memory_id : String)
deriving DecidableEq, Repr

/-- `ToolingManager::update_memory`. -/
def update_memory (o : UpdateStoreOracle) (memory_id new_content now : String) :
    Except String Bool × List UpdateCall :=
  match o.embed with
  | Except.error e => (Except.error e, [])
  | Except.ok _ =>
    match o.getMemoryFirst with
    | Except.error e => (Except.error e, [UpdateCall.getMemory memory_id])
    | Except.ok mem =>
      let internal_id : Option String :=
        match mem with
        | some id => if id = "" then none else some id
        | none => none
      match internal_id with
      | none =>
        (Except.error ("Memory " ++ memory_id ++ " not found"),
          [UpdateCall.getMemory memory_id])
      | some internal_id =>
        let calls := [UpdateCall.getMemory memory_id,
          UpdateCall.updateMemoryById internal_id new_content 80 50 now]
        match o.updateMemoryById with
        | Except.error e => (Except.error e, calls)
        | Except.ok _ =>
          match o.getMemorySecond with
          | Except.error _ => (Except.ok true, calls ++ [UpdateCall.getMemory memory_id])
          | Except.ok mem2 =>
            match mem2 with
            | some id2 =>
              if id2 = "" then (Except.ok true, calls ++ [UpdateCall.getMemory memory_id])
              else
                (Except.ok true, calls ++ [UpdateCall.getMemory memory_id,
                  UpdateCall.addMemoryEmbedding id2])
            | none => (Except.ok true, calls ++ [UpdateCall.getMemory memory_id])

/-! ## Concrete scenarios used by the claim theorems -/

/-- C1 store: seed `memA` whose only logical connection is an outgoing
`CONTRADICTS` edge to `memB`; `memB` has no connections. -/
def c1Conns : String → Except String GraphConnectionsResponse := fun id =>
  if id = "memA" then
    Except.ok { GraphConnectionsResponse.empty with
      contradicts_out := [⟨"memB", "b content", "t0"⟩] }
  else Except.ok GraphConnectionsResponse.empty

def c1Seed : SearchResult := SearchResult.from_vector "memA" "a content" (4/5) (1/2)

/-- A constant freshness oracle (the neutral value 0.5). -/
def constFresh : String → ℚ := fun _ => 1/2

/-- C2 input: the same memory reached via vector (combined 0.53) and via
graph (combined 0.7), plus a low-scoring second memory (combined 0.1). -/
def c2Results : List SearchResult :=
  [SearchResult.from_vector "m1" "x" (1/2) (3/5),
   SearchResult.from_graph "m1" "x" (1/2) (9/10) (1/2) 1 ["IMPLIES"],
   SearchResult.from_vector "m2" "y" (1/10) (1/10)]

/-- C3 tie pair: two distinct memories with equal combined scores. -/
def tieA : SearchResult :=
  { memory_id := "tieA", content := "a", vector_score := 1, graph_score := 0,
    temporal_score := 0, combined_score := 1, depth := 0, source := "vector",
    edge_path := none, created_at := none }

def tieB : SearchResult :=
  { memory_id := "tieB", content := "b", vector_score := 1, graph_score := 0,
    temporal_score := 0, combined_score := 1, depth := 0, source := "vector",
    edge_path := none, created_at := none }

/-- C5 store: seed `mem_seed` with three outgoing `IMPLIES` candidates. -/
def c5Conns : String → Except Unit ChainConnections := fun id =>
  if id = "mem_seed" then
    Except.ok { ChainConnections.empty with
      implies_out := [⟨"mem_one", "first option"⟩, ⟨"mem_two", "second option"⟩,
        ⟨"mem_three", "third option"⟩] }
  else Except.ok ChainConnections.empty

/-- A stub LLM that always answers `r`. -/
def stubLlm (r : String) : Option (String → String → Except Unit String) :=
  some (fun _ _ => Except.ok r)

/-- The `"both"`-mode candidate list `get_chain` builds at `mem_seed`. -/
def c5Candidates : List (MemoryNode × ReasoningType × Bool) :=
  [(⟨"mem_one", "first option"⟩, ReasoningType.Implies, false),
   (⟨"mem_two", "second option"⟩, ReasoningType.Implies, false),
   (⟨"mem_three", "third option"⟩, ReasoningType.Implies, false)]

/-- C7 extraction: three memories. -/
def c7Mems : List ExtractedMemory :=
  [{ text := "alpha fact", memory_type := "fact", certainty := 50, importance := 50,
     entities := [] },
   { text := "beta fact", memory_type := "fact", certainty := 50, importance := 50,
     entities := [] },
   { text := "gamma fact", memory_type := "fact", certainty := 50, importance := 50,
     entities := [] }]

/-- C7 decision engine: `Noop` for the first memory, `Add` for the rest. -/
def c7Decider : ExtractedMemory → MemoryDecision := fun m =>
  if m.text = "alpha fact" then ⟨.Noop, none, none, none, none⟩
  else ⟨.Add, none, none, none, none⟩

/-- C7 minted ids, in `store_new_memory` call order. -/
def c7Mint : Nat → String := fun i =>
  if i = 0 then "mem_bbbbbbbbbbbb" else "mem_cccccccccccc"

def c7Loop : AddMemoryLoopState := add_memory_loop c7Decider c7Mint c7Mems

def c7Map : List (String × String) := build_content_map c7Mems c7Loop.added_ids

/-- C9 oracle: `getMemory` finds no memory. -/
def c9OracleMissing : UpdateStoreOracle :=
  ⟨Except.ok (), Except.ok none, Except.ok (), Except.ok none, Except.ok ()⟩

/-- C9 oracle: the target exists (internal id `int42`), the update succeeds,
and the best-effort embedding re-insert fails. -/
def c9OracleOk : UpdateStoreOracle :=
  ⟨Except.ok (), Except.ok (some "int42"), Except.ok (), Except.ok (some "int42"),
   Except.error "embedding re-insert failed"⟩

/-! ## Claim theorems -/

/-- Claim C1.  The claim states that phase-2 graph expansion only follows
and emits neighbours reached via edges whose label is in the configured
`edge_types` whitelist (default `{BECAUSE, IMPLIES, MEMORY_RELATION}`), so
a neighbour reachable only via a non-whitelisted edge never appears in the
expansion output.  The code violates this: `graph_expansion_phase` receives
the whitelist but never passes it on, and `expand_from_node` processes all
eight neighbour collections unconditionally.  Concretely, with the default
whitelist (which does not contain `CONTRADICTS`) and a seed whose only
connection is an outgoing `CONTRADICTS` edge to `memB`, the expansion
output consists exactly of `memB`, reached via `CONTRADICTS`. -/
theorem c1_expansion_emits_non_whitelisted_neighbor :
    "CONTRADICTS" ∉ SearchConfig.default.edge_types.getD [] ∧
    (graph_expansion_phase constFresh c1Conns [c1Seed] 2
        (SearchConfig.default.edge_types.getD [])).map
      (fun r => (r.memory_id, r.edge_path)) =
      [("memB", some ["CONTRADICTS"])] := by
  constructor
  · decide
  · decide

/-- Claim C6.  If the extractor returns an empty memories list, `add_memory`
synthesizes exactly one fallback memory for persistence, built from the raw
message with type `fact`, certainty 50, importance 50 and no entities. -/
theorem c6_fallback_memory (message : String) (extracted : List ExtractedMemory)
    (h : extracted = []) :
    memories_to_store message extracted =
      [{ text := message, memory_type := "fact", certainty := 50, importance := 50,
         entities := [] }] ∧
    (memories_to_store message extracted).length = 1 := by
  subst h
  exact ⟨by simp [memories_to_store], by simp [memories_to_store]⟩

/-- Witness for C6 at the concrete message `"hello"`. -/
theorem c6_fallback_memory_witness :
    memories_to_store "hello" [] =
      [{ text := "hello", memory_type := "fact", certainty := 50, importance := 50,
         entities := [] }] ∧
    (memories_to_store "hello" []).length = 1 :=
  c6_fallback_memory "hello" [] rfl

/-- Claim C7.  The claim states that in `add_memory`'s cross-memory
relation stage every resolvable endpoint content resolves to the id minted
in this message *for the extracted memory bearing that content*.  The code
pairs `memories_to_store[idx]` with `added_ids[idx]`, which misaligns as
soon as an earlier memory is skipped: with three extracted memories where
the first (`"alpha fact"`) is decided `Noop` and the other two are added,
`"alpha fact"` resolves to `mem_bbbbbbbbbbbb` — the id minted for
`"beta fact"`, not for any memory bearing the content `"alpha fact"` (none
was stored) — and the relation `"alpha fact" → "beta fact"` is persisted as
`add_relation(mem_bbbbbbbbbbbb, mem_cccccccccccc, Implies, 80)`. -/
theorem c7_content_map_misaligned :
    c7Loop.added_ids = ["mem_bbbbbbbbbbbb", "mem_cccccccccccc"] ∧
    c7Loop.skipped = 1 ∧
    c7Loop.stored = [("beta fact", "mem_bbbbbbbbbbbb"), ("gamma fact", "mem_cccccccccccc")] ∧
    resolve_endpoint c7Map "alpha fact" = some "mem_bbbbbbbbbbbb" ∧
    (∀ p ∈ c7Loop.stored, p.2 = "mem_bbbbbbbbbbbb" → p.1 ≠ "alpha fact") ∧
    process_relations c7Map [⟨"alpha fact", "beta fact", "IMPLIES"⟩] =
      [("mem_bbbbbbbbbbbb", "mem_cccccccccccc", ReasoningType.Implies, 80)] := by
  refine ⟨by decide, by decide, by decide, by decide, by decide, by decide⟩

/-- Claim C8.  The claim states that `make_cache_key` totally computes a
16-hex-character key, the formatted hash string always being at least 16
characters long so that the `[..16]` truncation never panics.  The code
formats the 64-bit hash with `{:x}` (no leading zeros), so whenever the
hash is below `2^60` the string is shorter than 16 bytes and the byte-slice
`[..16]` panics (modelled as `none`).  The input
`query="q11"`, `user_id=None`, `limit=10`, `min_score=0.5` hashes to
`0x92b8fe7d0a9ddca`, a 15-character hex string. -/
theorem c8_make_cache_key_panics :
    (rustHex (rust_default_hash_str "q11||10|0.5")).data.length = 15 ∧
    make_cache_key "q11" "" 10 "0.5" = none := by
  constructor
  · decide
  · decide

/-- Claim C4.  For every `add_relation` call the strength carried by the
returned relation lies in `[0, 100]` — inputs below 0 are stored as 0 and
inputs above 100 as 100 — and so does the strength-like field of the
persisted store operation whenever it carries one (`probability` for
implications, `strength` for causations and supports; contradictions carry
no strength field). -/
theorem c4_add_relation_clamps_strength (from_id to_id : String)
    (relation_type : ReasoningType) (strength : Int) (reasoning_id : Option String)
    (now : String) :
    (0 ≤ (add_relation from_id to_id relation_type strength reasoning_id now).1.strength ∧
      (add_relation from_id to_id relation_type strength reasoning_id now).1.strength ≤ 100) ∧
    (∀ v, (add_relation from_id to_id relation_type strength reasoning_id now).2.strength_field
        = some v → 0 ≤ v ∧ v ≤ 100) ∧
    (strength < 0 →
      (add_relation from_id to_id relation_type strength reasoning_id now).1.strength = 0) ∧
    (100 < strength →
      (add_relation from_id to_id relation_type strength reasoning_id now).1.strength = 100) := by
  cases relation_type <;>
    simp only [add_relation, clamp_0_100, PersistCall.strength_field] <;>
    split_ifs <;>
    refine ⟨⟨by omega, by omega⟩, ?_, by omega, by omega⟩ <;>
    rintro v hv <;> simp_all <;> omega

/-- Witness for C4: at input strength −5 the stored and returned strengths
are 0; at input strength 170 the returned strength is 100. -/
theorem c4_add_relation_clamps_strength_witness :
    (add_relation "memA" "memB" ReasoningType.Implies (-5) none "t").1.strength = 0 ∧
    (0 ≤ (add_relation "memA" "memB" ReasoningType.Implies (-5) none "t").1.strength ∧
      (add_relation "memA" "memB" ReasoningType.Implies (-5) none "t").1.strength ≤ 100) ∧
    (add_relation "memA" "memB" ReasoningType.Because 170 none "t").1.strength = 100 :=
  ⟨(c4_add_relation_clamps_strength "memA" "memB" ReasoningType.Implies (-5) none "t").2.2.1
      (by decide),
   (c4_add_relation_clamps_strength "memA" "memB" ReasoningType.Implies (-5) none "t").1,
   (c4_add_relation_clamps_strength "memA" "memB" ReasoningType.Because 170 none "t").2.2.2
      (by decide)⟩

/-- Claim C9.  `update_memory` fails — without issuing `updateMemoryById` —
when `getMemory` finds no memory or an empty internal id; when the target
exists it calls `updateMemoryById` with certainty 80, importance 50 and
`updated_at = now`, and a failure of the best-effort embedding re-insert
(whose outcome the source discards) does not make the call fail. -/
theorem c9_update_memory_missing_target (o : UpdateStoreOracle)
    (memory_id new_content now : String) :
    (o.embed = Except.ok () →
      (o.getMemoryFirst = Except.ok none ∨ o.getMemoryFirst = Except.ok (some "")) →
      (update_memory o memory_id new_content now).1 =
        Except.error ("Memory " ++ memory_id ++ " not found") ∧
      ∀ id c ce im ua,
        UpdateCall.updateMemoryById id c ce im ua ∉
          (update_memory o memory_id new_content now).2) ∧
    (∀ internal_id, o.embed = Except.ok () →
      o.getMemoryFirst = Except.ok (some internal_id) → internal_id ≠ "" →
      o.updateMemoryById = Except.ok () →
      (update_memory o memory_id new_content now).1 = Except.ok true ∧
      UpdateCall.updateMemoryById internal_id new_content 80 50 now ∈
        (update_memory o memory_id new_content now).2) := by
  constructor
  · intro hembed hget
    rcases hget with hget | hget <;>
      simp [update_memory, hembed, hget]
  · intro internal_id hembed hget hne hupd
    rcases h2 : o.getMemorySecond with e | m2
    · simp [update_memory, hembed, hget, hne, hupd, h2]
    · rcases m2 with _ | id2
      · simp [update_memory, hembed, hget, hne, hupd, h2]
      · by_cases hid2 : id2 = "" <;>
          simp [update_memory, hembed, hget, hne, hupd, h2, hid2]

/-- Witness for C9: with a store in which the memory is missing the call
errors and issues no `updateMemoryById`; with a store in which the target
has internal id `int42`, the update succeeds and the embedding re-insert
fails, the call still returns `true` and has issued the
`updateMemoryById(int42, …, 80, 50, now)` call. -/
theorem c9_update_memory_missing_target_witness :
    (update_memory c9OracleMissing "mem_x" "new text" "t0").1 =
      Except.error "Memory mem_x not found" ∧
    UpdateCall.updateMemoryById "int42" "new text" 80 50 "t0" ∉
      (update_memory c9OracleMissing "mem_x" "new text" "t0").2 ∧
    (update_memory c9OracleOk "mem_x" "new text" "t0").1 = Except.ok true ∧
    UpdateCall.updateMemoryById "int42" "new text" 80 50 "t0" ∈
      (update_memory c9OracleOk "mem_x" "new text" "t0").2 :=
  ⟨((c9_update_memory_missing_target c9OracleMissing "mem_x" "new text" "t0").1 rfl
      (Or.inl rfl)).1,
   ((c9_update_memory_missing_target c9OracleMissing "mem_x" "new text" "t0").1 rfl
      (Or.inl rfl)).2 "int42" "new text" 80 50 "t0",
   ((c9_update_memory_missing_target c9OracleOk "mem_x" "new text" "t0").2 "int42" rfl rfl
      (by decide) rfl).1,
   ((c9_update_memory_missing_target c9OracleOk "mem_x" "new text" "t0").2 "int42" rfl rfl
      (by decide) rfl).2⟩

/-- Claim C5 (counterexample).  The claim states the chain walker parses
the first integer of the LLM response and *clamps it to the candidate
range 1..n*.  The code has no clamp: `response.trim().parse().unwrap_or(1)`
followed by `.nth(choice.saturating_sub(1))` returns `None` for an
out-of-range answer, so the walk stops without advancing.  With three
candidates and the stub LLM answering `"5"`, the claim (clamped to 3)
requires advancing to the 3rd candidate, but the chain stays empty at
depth 0: no candidate is selected. -/
theorem c5_no_clamp_counterexample :
    (get_chain c5Conns (stubLlm "5") "mem_seed" "both" 3).relations = [] ∧
    (get_chain c5Conns (stubLlm "5") "mem_seed" "both" 3).depth = 0 ∧
    c5Candidates.length = 3 ∧
    llm_choice "5" c5Candidates = none := by
  refine ⟨by decide, by decide, by decide, by decide⟩

/-- Claim C5 (amended).  With an LLM configured and three unvisited
candidates, the walker parses the whole trimmed response as an integer,
defaulting to 1 on any parse error, and indexes the candidate list at
position `value − 1` (saturating, so values ≤ 1 pick the 1st candidate):
`"2"` advances to the 2nd candidate, `"banana"` to the 1st, and a value
beyond the candidate count selects nothing, stopping the walk.  Stated for
every LLM response `r` over the three-candidate store `c5Conns`. -/
theorem c5_llm_tie_break (r : String) :
    ((get_chain c5Conns (stubLlm r) "mem_seed" "both" 1).relations.map
      (fun rel => rel.to_memory_id)) =
    (llm_choice r c5Candidates).elim [] (fun c => [c.1.memory_id]) := by
  rcases hp : parseUsize (rust_trim r) with _ | n
  · simp [get_chain, get_chain_loop, c5Conns, stubLlm, llm_choice, ChainConnections.empty,
      c5Candidates, hp]
  · rcases n with _ | _ | _ | _ | n <;>
      simp [get_chain, get_chain_loop, c5Conns, stubLlm, llm_choice, ChainConnections.empty,
        c5Candidates, hp, List.get?]

/-! ### Helper lemmas about `best_scores` and the stable sort -/

theorem insertBest_mem {r x : SearchResult} {acc : List SearchResult}
    (h : x ∈ insertBest r acc) : x = r ∨ x ∈ acc := by
  induction acc with
  | nil => simpa [insertBest] using h
  | cons a acc ih =>
    simp only [insertBest] at h
    split_ifs at h with h1 h2
    · rcases List.mem_cons.mp h with h | h
      · exact Or.inl h
      · exact Or.inr (List.mem_cons_of_mem _ h)
    · rcases List.mem_cons.mp h with h | h
      · exact Or.inr (by simp [h])
      · exact Or.inr (List.mem_cons_of_mem _ h)
    · rcases List.mem_cons.mp h with h | h
      · exact Or.inr (by simp [h])
      · rcases ih h with h | h
        · exact Or.inl h
        · exact Or.inr (List.mem_cons_of_mem _ h)

theorem insertBest_ids (r : SearchResult) (acc : List SearchResult) :
    (insertBest r acc).map SearchResult.memory_id =
      if r.memory_id ∈ acc.map SearchResult.memory_id then
        acc.map SearchResult.memory_id
      else acc.map SearchResult.memory_id ++ [r.memory_id] := by
  induction acc with
  | nil => simp [insertBest]
  | cons a acc ih =>
    simp only [insertBest, List.map_cons]
    split_ifs with h1 h2 h3 h4 <;> (simp_all; try tauto)

theorem insertBest_ids_nodup {r : SearchResult} {acc : List SearchResult}
    (h : (acc.map SearchResult.memory_id).Nodup) :
    ((insertBest r acc).map SearchResult.memory_id).Nodup := by
  rw [insertBest_ids]
  split_ifs with hmem
  · exact h
  · simp [List.nodup_append, h, hmem]

theorem insertBest_exists_ge (r : SearchResult) (acc : List SearchResult) :
    ∃ a ∈ insertBest r acc,
      a.memory_id = r.memory_id ∧ r.combined_score ≤ a.combined_score := by
  induction acc with
  | nil => exact ⟨r, by simp [insertBest]⟩
  | cons x acc ih =>
    simp only [insertBest]
    split_ifs with h1 h2
    · exact ⟨r, by simp, rfl, le_refl _⟩
    · exact ⟨x, by simp, h1, le_of_not_lt h2⟩
    · obtain ⟨a, ha, hh⟩ := ih
      exact ⟨a, List.mem_cons_of_mem _ ha, hh⟩

theorem insertBest_preserves_ge {b : SearchResult} (r : SearchResult)
    {acc : List SearchResult} (hb : b ∈ acc) :
    ∃ a ∈ insertBest r acc,
      a.memory_id = b.memory_id ∧ b.combined_score ≤ a.combined_score := by
  induction acc with
  | nil => cases hb
  | cons x acc ih =>
    simp only [insertBest]
    rcases List.mem_cons.mp hb with rfl | hb
    · split_ifs with h1 h2
      · exact ⟨r, by simp, h1.symm, le_of_lt h2⟩
      · exact ⟨b, by simp, rfl, le_refl _⟩
      · exact ⟨b, by simp, rfl, le_refl _⟩
    · split_ifs with h1 h2
      · exact ⟨b, by simp [hb], rfl, le_refl _⟩
      · exact ⟨b, by simp [hb], rfl, le_refl _⟩
      · obtain ⟨a, ha, hh⟩ := ih hb
        exact ⟨a, by simp [ha], hh⟩

theorem foldl_insertBest_spec (rs : List SearchResult) :
    ∀ acc : List SearchResult, (acc.map SearchResult.memory_id).Nodup →
      (((rs.foldl (fun acc r => insertBest r acc) acc).map SearchResult.memory_id).Nodup ∧
       (∀ a ∈ rs.foldl (fun acc r => insertBest r acc) acc, a ∈ acc ∨ a ∈ rs) ∧
       (∀ b ∈ acc, ∃ a ∈ rs.foldl (fun acc r => insertBest r acc) acc,
          a.memory_id = b.memory_id ∧ b.combined_score ≤ a.combined_score) ∧
       (∀ p ∈ rs, ∃ a ∈ rs.foldl (fun acc r => insertBest r acc) acc,
          a.memory_id = p.memory_id ∧ p.combined_score ≤ a.combined_score)) := by
  induction rs with
  | nil =>
    intro acc h
    exact ⟨h, fun a ha => Or.inl ha, fun b hb => ⟨b, hb, rfl, le_refl _⟩, by simp⟩
  | cons r rs ih =>
    intro acc hnd
    have hnd2 := insertBest_ids_nodup (r := r) hnd
    obtain ⟨H1, H2, H3, H4⟩ := ih (insertBest r acc) hnd2
    simp only [List.foldl_cons]
    refine ⟨H1, ?_, ?_, ?_⟩
    · intro a ha
      rcases H2 a ha with h | h
      · rcases insertBest_mem h with rfl | h
        · exact Or.inr (List.mem_cons_self _ _)
        · exact Or.inl h
      · exact Or.inr (List.mem_cons_of_mem _ h)
    · intro b hb
      obtain ⟨c, hc, hcid, hcge⟩ := insertBest_preserves_ge r hb
      obtain ⟨a, ha, haid, hage⟩ := H3 c hc
      exact ⟨a, ha, haid.trans hcid, hcge.trans hage⟩
    · intro p hp
      rcases List.mem_cons.mp hp with rfl | hp
      · obtain ⟨c, hc, hcid, hcge⟩ := insertBest_exists_ge p acc
        obtain ⟨a, ha, haid, hage⟩ := H3 c hc
        exact ⟨a, ha, haid.trans hcid, hcge.trans hage⟩
      · exact H4 p hp

theorem best_scores_spec (results : List SearchResult) :
    ((best_scores results).map SearchResult.memory_id).Nodup ∧
    (∀ a ∈ best_scores results, a ∈ results) ∧
    (∀ p ∈ results, ∃ a ∈ best_scores results,
       a.memory_id = p.memory_id ∧ p.combined_score ≤ a.combined_score) := by
  obtain ⟨H1, H2, _, H4⟩ := foldl_insertBest_spec results [] (by simp)
  refine ⟨H1, fun a ha => ?_, H4⟩
  rcases H2 a ha with h | h
  · cases h
  · exact h

theorem best_scores_max (results : List SearchResult) :
    ∀ a ∈ best_scores results, ∀ p ∈ results,
      p.memory_id = a.memory_id → p.combined_score ≤ a.combined_score := by
  intro a ha p hp hid
  obtain ⟨a2, ha2, hid2, hge2⟩ := (best_scores_spec results).2.2 p hp
  have heq : a = a2 :=
    List.inj_on_of_nodup_map (best_scores_spec results).1 ha ha2 (by rw [hid2, hid])
  rw [heq]
  exact hge2

theorem insertResultDesc_perm (r : SearchResult) (l : List SearchResult) :
    (insertResultDesc r l).Perm (r :: l) := by
  induction l with
  | nil => exact List.Perm.refl _
  | cons x xs ih =>
    simp only [insertResultDesc]
    split_ifs with h
    · exact (ih.cons x).trans (List.Perm.swap _ _ _)
    · exact List.Perm.refl _

theorem sortByCombinedDesc_perm (l : List SearchResult) :
    (sortByCombinedDesc l).Perm l := by
  induction l with
  | nil => exact List.Perm.refl _
  | cons x xs ih => exact (insertResultDesc_perm x _).trans (ih.cons x)

theorem insertResultDesc_pairwise {r : SearchResult} {l : List SearchResult}
    (h : l.Pairwise (fun a b => b.combined_score ≤ a.combined_score)) :
    (insertResultDesc r l).Pairwise (fun a b => b.combined_score ≤ a.combined_score) := by
  induction l with
  | nil => simp [insertResultDesc]
  | cons x xs ih =>
    rcases List.pairwise_cons.mp h with ⟨hx, hxs⟩
    simp only [insertResultDesc]
    split_ifs with hlt
    · refine List.pairwise_cons.mpr ⟨?_, ih hxs⟩
      intro y hy
      rcases List.mem_cons.mp ((insertResultDesc_perm r xs).mem_iff.mp hy) with rfl | hy
      · exact le_of_lt hlt
      · exact hx y hy
    · refine List.pairwise_cons.mpr ⟨?_, h⟩
      intro y hy
      rcases List.mem_cons.mp hy with rfl | hy
      · exact not_lt.mp hlt
      · exact (hx y hy).trans (not_lt.mp hlt)

theorem sortByCombinedDesc_pairwise (l : List SearchResult) :
    (sortByCombinedDesc l).Pairwise (fun a b => b.combined_score ≤ a.combined_score) := by
  induction l with
  | nil => simp [sortByCombinedDesc]
  | cons x xs ih => exact insertResultDesc_pairwise ih

/-- Claim C2.  For every input to the rank/filter phase — with the hash
map's unspecified `into_values()` order made explicit as any permutation
`values_order` of the map contents `best_scores results` — the output
mentions each `memory_id` at most once, every emitted entry is an input
entry meeting the `min_combined_score` threshold whose combined score is
maximal among all input entries with its id, and every input entry at or
above the threshold is represented by an output entry with its id. -/
theorem c2_rank_and_filter_dedup (results : List SearchResult)
    (min_combined_score : ℚ) (values_order : List SearchResult)
    (hperm : values_order.Perm (best_scores results)) :
    ((rank_and_filter values_order min_combined_score).map SearchResult.memory_id).Nodup ∧
    (∀ r ∈ rank_and_filter values_order min_combined_score,
       min_combined_score ≤ r.combined_score ∧ r ∈ results ∧
       ∀ p ∈ results, p.memory_id = r.memory_id →
         p.combined_score ≤ r.combined_score) ∧
    (∀ p ∈ results, min_combined_score ≤ p.combined_score →
       ∃ r ∈ rank_and_filter values_order min_combined_score,
         r.memory_id = p.memory_id) := by
  have hsort :
      (rank_and_filter values_order min_combined_score).Perm
        (values_order.filter (fun r => min_combined_score ≤ r.combined_score)) :=
    sortByCombinedDesc_perm _
  have hspec := best_scores_spec results
  refine ⟨?_, ?_, ?_⟩
  · have h2 : (values_order.map SearchResult.memory_id).Nodup :=
      ((hperm.map SearchResult.memory_id).nodup_iff).mpr hspec.1
    have h3 :
        ((values_order.filter
          (fun r => min_combined_score ≤ r.combined_score)).map
            SearchResult.memory_id).Nodup :=
      h2.sublist ((List.filter_sublist _).map _)
    exact ((hsort.map SearchResult.memory_id).nodup_iff).mpr h3
  · intro r hr
    have hrf := hsort.mem_iff.mp hr
    have hrv : r ∈ values_order := List.mem_of_mem_filter hrf
    have hscore : min_combined_score ≤ r.combined_score := by
      have := List.of_mem_filter hrf
      simpa using this
    have hrb : r ∈ best_scores results := hperm.mem_iff.mp hrv
    exact ⟨hscore, hspec.2.1 r hrb, best_scores_max results r hrb⟩
  · intro p hp hpge
    obtain ⟨a, ha, haid, hage⟩ := hspec.2.2 p hp
    have hav : a ∈ values_order := hperm.mem_iff.mpr ha
    have haf : a ∈ values_order.filter (fun r => min_combined_score ≤ r.combined_score) :=
      List.mem_filter.mpr ⟨hav, by simpa using hpge.trans hage⟩
    exact ⟨a, hsort.mem_iff.mpr haf, haid⟩

/-- Witness for C2: the concrete input `c2Results` (memory `m1` reached via
vector with combined score 0.53 and via graph with combined score 0.7,
memory `m2` with combined score 0.1), threshold 0.3, and the identity
iteration order. -/
theorem c2_rank_and_filter_dedup_witness :
    ((rank_and_filter (best_scores c2Results) (3/10)).map SearchResult.memory_id).Nodup ∧
    (∀ r ∈ rank_and_filter (best_scores c2Results) (3/10),
       (3 : ℚ)/10 ≤ r.combined_score ∧ r ∈ c2Results ∧
       ∀ p ∈ c2Results, p.memory_id = r.memory_id →
         p.combined_score ≤ r.combined_score) ∧
    (∀ p ∈ c2Results, (3 : ℚ)/10 ≤ p.combined_score →
       ∃ r ∈ rank_and_filter (best_scores c2Results) (3/10),
         r.memory_id = p.memory_id) :=
  c2_rank_and_filter_dedup c2Results (3/10) (best_scores c2Results) (List.Perm.refl _)

/-- Claim C3 (counterexample).  The claim states that entries with equal
combined scores appear in first-insertion order.  The sort is stable, but
it runs over `HashMap::into_values()`, whose order is unspecified: with the
equal-scoring `tieA` (inserted first) and `tieB`, the value order
`[tieB, tieA]` is a permutation of the map contents, and on it the phase
returns `[tieB, tieA]` — not the first-insertion order `[tieA, tieB]`. -/
theorem c3_tie_order_counterexample :
    (best_scores [tieA, tieB] = [tieA, tieB]) ∧
    ([tieB, tieA].Perm (best_scores [tieA, tieB])) ∧
    tieA.combined_score = tieB.combined_score ∧
    tieA.memory_id ≠ tieB.memory_id ∧
    rank_and_filter [tieB, tieA] 0 = [tieB, tieA] ∧
    rank_and_filter [tieB, tieA] 0 ≠ [tieA, tieB] := by
  have hbs : best_scores [tieA, tieB] = [tieA, tieB] := by decide
  refine ⟨hbs, hbs ▸ List.Perm.swap _ _ _, by decide, by decide, by decide, by decide⟩

/-- Claim C3 (amended).  The rank/filter output is sorted by combined score
descending; the relative order of equal-score entries follows the hash
map's unspecified value-iteration order (which the stable sort preserves),
not the first-insertion order.  Stated for every value sequence and
threshold: the output is pairwise sorted and is a permutation of the
thresholded value sequence. -/
theorem c3_rank_and_filter_sorted (values_order : List SearchResult)
    (min_combined_score : ℚ) :
    (rank_and_filter values_order min_combined_score).Pairwise
      (fun a b => b.combined_score ≤ a.combined_score) ∧
    (rank_and_filter values_order min_combined_score).Perm
      (values_order.filter (fun r => min_combined_score ≤ r.combined_score)) :=
  ⟨sortByCombinedDesc_pairwise _, sortByCombinedDesc_perm _⟩

/-- Claim C10.  Starting from an un-warmed engine: if the first
`warm_up_cache` call's store query succeeds, the warmed-up flag is set and
the second call issues no store query (so the two calls issue exactly one
query); if the first call's query fails, the call returns `Ok 0`, the flag
stays unset, and the second call issues the query again. -/
theorem c10_warm_up_cache_one_shot (s1 s2 : Except String (Option Nat))
    (st : ReasoningEngineState) (h : st.is_warmed_up = false) :
    (∀ v, s1 = Except.ok v →
      (warm_up_cache s1 st).2.2 = true ∧
      (warm_up_cache s1 st).2.1.is_warmed_up = true ∧
      (warm_up_cache s2 (warm_up_cache s1 st).2.1).2.2 = false) ∧
    (∀ e, s1 = Except.error e →
      (warm_up_cache s1 st).1 = Except.ok 0 ∧
      (warm_up_cache s1 st).2.1.is_warmed_up = false ∧
      (warm_up_cache s1 st).2.2 = true ∧
      (warm_up_cache s2 (warm_up_cache s1 st).2.1).2.2 = true) := by
  constructor
  · rintro v rfl
    simp [warm_up_cache, h]
  · rintro e rfl
    rcases s2 with e2 | v2 <;> simp [warm_up_cache, h]

/-- Witness for C10: from the fresh state, a successful first call means
the second call issues no query; a failed first call returns 0, leaves the
flag unset, and the retry queries again. -/
theorem c10_warm_up_cache_one_shot_witness :
    (warm_up_cache (Except.ok (some 3)) ⟨false, 0⟩).2.2 = true ∧
    (warm_up_cache (Except.ok (some 3)) ⟨false, 0⟩).2.1.is_warmed_up = true ∧
    (warm_up_cache (Except.ok none)
      (warm_up_cache (Except.ok (some 3)) ⟨false, 0⟩).2.1).2.2 = false ∧
    (warm_up_cache (Except.error "down") ⟨false, 0⟩).1 = Except.ok 0 ∧
    (warm_up_cache (Except.error "down") ⟨false, 0⟩).2.1.is_warmed_up = false ∧
    (warm_up_cache (Except.ok (some 3))
      (warm_up_cache (Except.error "down") ⟨false, 0⟩).2.1).2.2 = true :=
  ⟨((c10_warm_up_cache_one_shot (Except.ok (some 3)) (Except.ok none) ⟨false, 0⟩ rfl).1
      (some 3) rfl).1,
   ((c10_warm_up_cache_one_shot (Except.ok (some 3)) (Except.ok none) ⟨false, 0⟩ rfl).1
      (some 3) rfl).2.1,
   ((c10_warm_up_cache_one_shot (Except.ok (some 3)) (Except.ok none) ⟨false, 0⟩ rfl).1
      (some 3) rfl).2.2,
   ((c10_warm_up_cache_one_shot (Except.error "down") (Except.ok (some 3)) ⟨false, 0⟩ rfl).2
      "down" rfl).1,
   ((c10_warm_up_cache_one_shot (Except.error "down") (Except.ok (some 3)) ⟨false, 0⟩ rfl).2
      "down" rfl).2.1,
   ((c10_warm_up_cache_one_shot (Except.error "down") (Except.ok (some 3)) ⟨false, 0⟩ rfl).2
      "down" rfl).2.2.2⟩

end Helixir
